import Mathlib

/-!
# Verification of the Peloton scheduling-pipeline core

A shallow embedding, in Lean 4, of the parts of the Peloton control plane
that the specification's claims mention:

* the offer-pool `Matcher` (`pkg/hostmgr/offer/offerpool/matcher.go`),
* the resource-manager task `tracker` (`resmgr/task/tracker.go`),
* the job-manager placement `processor` (`jobmgr/task/placement/placement.go`),
* task-config validation (`jobmgr/job/config/validate.go`),
* the leader-gated host-manager server round and the task launcher, which are
  not part of the provided sources and are therefore modelled from the
  specification text (their tests constrain the model).

Go maps are embedded as association lists; the helpers below mirror Go map
primitives (`m[k]`, `delete(m, k)`, in-place update, insert-if-absent).
Machine integers are embedded as `Nat` (no arithmetic here overflows).
-/

namespace Peloton

/-- Go map read `m[k]`: first binding of key `k`, if any. -/
def alookup [DecidableEq α] (k : α) : List (α × β) → Option β
  | [] => none
  | p :: rest => if p.1 = k then some p.2 else alookup k rest

/-- Go map `delete(m, k)`. -/
def eraseKey [DecidableEq α] (k : α) : List (α × β) → List (α × β)
  | [] => []
  | p :: rest => if p.1 = k then eraseKey k rest else p :: eraseKey k rest

/-- Go in-place update `m[k] = v` for a key already present (no-op otherwise). -/
def updateKey [DecidableEq α] (k : α) (v : β) : List (α × β) → List (α × β)
  | [] => []
  | p :: rest => (if p.1 = k then (k, v) else p) :: updateKey k v rest

/-- Go `if _, ok := m[k]; !ok { m[k] = v }`. -/
def insertIfAbsent [DecidableEq α] (k : α) (v : β) (l : List (α × β)) : List (α × β) :=
  if (alookup k l).isSome then l else l ++ [(k, v)]

theorem alookup_eraseKey_self [DecidableEq α] (k : α) (l : List (α × β)) :
    alookup k (eraseKey k l) = none := by
  induction l with
  | nil => rfl
  | cons p rest ih =>
    by_cases h : p.1 = k
    · simpa [eraseKey, h] using ih
    · simpa [eraseKey, h, alookup] using ih

theorem alookup_eraseKey_ne [DecidableEq α] (k k' : α) (l : List (α × β)) (h : k ≠ k') :
    alookup k' (eraseKey k l) = alookup k' l := by
  induction l with
  | nil => rfl
  | cons p rest ih =>
    by_cases hp : p.1 = k
    · have hpk' : p.1 ≠ k' := by rw [hp]; exact h
      rw [show eraseKey k (p :: rest) = eraseKey k rest by simp [eraseKey, hp]]
      rw [show alookup k' (p :: rest) = alookup k' rest by simp [alookup, hpk']]
      exact ih
    · rw [show eraseKey k (p :: rest) = p :: eraseKey k rest by simp [eraseKey, hp]]
      by_cases hp' : p.1 = k'
      · simp [alookup, hp']
      · simp [alookup, hp', ih]

theorem alookup_updateKey_self [DecidableEq α] (k : α) (v : β) (l : List (α × β)) :
    alookup k (updateKey k v l) = if (alookup k l).isSome then some v else none := by
  induction l with
  | nil => rfl
  | cons p rest ih =>
    by_cases h : p.1 = k
    · simp [updateKey, alookup, h]
    · simpa [updateKey, alookup, h] using ih

theorem alookup_updateKey_ne [DecidableEq α] (k k' : α) (v : β) (l : List (α × β))
    (h : k ≠ k') : alookup k' (updateKey k v l) = alookup k' l := by
  induction l with
  | nil => rfl
  | cons p rest ih =>
    by_cases hp : p.1 = k
    · have hpk' : p.1 ≠ k' := by rw [hp]; exact h
      rw [show updateKey k v (p :: rest) = (k, v) :: updateKey k v rest by
        simp [updateKey, hp]]
      rw [show alookup k' ((k, v) :: updateKey k v rest) = alookup k' (updateKey k v rest) by
        simp [alookup, h]]
      rw [show alookup k' (p :: rest) = alookup k' rest by simp [alookup, hpk']]
      exact ih
    · rw [show updateKey k v (p :: rest) = p :: updateKey k v rest by simp [updateKey, hp]]
      by_cases hp' : p.1 = k'
      · simp [alookup, hp']
      · simp [alookup, hp', ih]

theorem alookup_append [DecidableEq α] (k : α) (l₁ l₂ : List (α × β)) :
    alookup k (l₁ ++ l₂) =
      match alookup k l₁ with
      | some v => some v
      | none => alookup k l₂ := by
  induction l₁ with
  | nil => rfl
  | cons p rest ih =>
    by_cases h : p.1 = k
    · simp [alookup, h]
    · simpa [alookup, h] using ih

/-! ## Offer-pool matcher (`pkg/hostmgr/offer/offerpool/matcher.go`) -/

namespace Offerpool

/-- `hostsvc.HostFilterResult` values the matcher produces. -/
inductive HostFilterResult where
  | MATCH
  | MISMATCH_CONSTRAINTS
  | MISMATCH_RESOURCES
  | MISMATCH_STATUS
  | MISMATCH_MAX_HOST_LIMIT
deriving DecidableEq, Repr

/-- Lowercase enum name, used as the key of `filterResultCounts`. -/
def HostFilterResult.lowerName : HostFilterResult → String
  | .MATCH => "match"
  | .MISMATCH_CONSTRAINTS => "mismatch_constraints"
  | .MISMATCH_RESOURCES => "mismatch_resources"
  | .MISMATCH_STATUS => "mismatch_status"
  | .MISMATCH_MAX_HOST_LIMIT => "mismatch_max_host_limit"

/-- `summary.Offer` is opaque to the matcher; only its identity matters here. -/
structure Offer where
  id : String
deriving DecidableEq, Repr

/-- The part of `hostsvc.HostFilter` the matcher reads: `Quantity.MaxHosts`. -/
structure HostFilter where
  maxHosts : Nat
deriving DecidableEq, Repr

/-- `math.MaxUint32`. -/
def UINT32_MAX : Nat := 4294967295

/-- `effectiveHostLimit`: `MaxHosts`, with `0` meaning unlimited (`MaxUint32`). -/
def effectiveHostLimit (f : HostFilter) : Nat :=
  if f.maxHosts = 0 then UINT32_MAX else f.maxHosts

/-- Outcome of `summary.HostSummary.TryMatch` (a collaborator outside the
matcher): a result code and, on `MATCH`, the claimed offer. -/
structure SummaryMatch where
  result : HostFilterResult
  offer : Option Offer
deriving DecidableEq, Repr

/-- `offerpool.Matcher`. -/
structure Matcher where
  hostFilter : HostFilter
  hostOffers : List (String × Option Offer)
  filterResultCounts : List (String × Nat)
deriving DecidableEq, Repr

/-- `Matcher.HasEnoughHosts`. -/
def Matcher.HasEnoughHosts (m : Matcher) : Bool :=
  m.hostOffers.length ≥ effectiveHostLimit m.hostFilter

/-- `Matcher.tryMatchImpl`. The host summary's `TryMatch` outcome is passed in
as `sm` (it depends on collaborator state the matcher does not own). -/
def Matcher.tryMatchImpl (m : Matcher) (hostname : String) (sm : SummaryMatch) :
    HostFilterResult × Matcher :=
  if m.HasEnoughHosts then
    (.MISMATCH_MAX_HOST_LIMIT, m)
  else if (alookup hostname m.hostOffers).isSome then
    (.MATCH, m)
  else if sm.result = .MATCH then
    (.MATCH, { m with hostOffers := m.hostOffers ++ [(hostname, sm.offer)] })
  else
    (sm.result, m)

/-- Increment a counter key in `filterResultCounts` (missing key counts as 0,
as for a Go map of `uint32`). -/
def bumpCount (counts : List (String × Nat)) (k : String) : List (String × Nat) :=
  match alookup k counts with
  | some n => updateKey k (n + 1) counts
  | none => counts ++ [(k, 1)]

/-- `Matcher.tryMatch`: run `tryMatchImpl` and record the result code. -/
def Matcher.tryMatch (m : Matcher) (hostname : String) (sm : SummaryMatch) : Matcher :=
  let r := m.tryMatchImpl hostname sm
  { r.2 with filterResultCounts := bumpCount r.2.filterResultCounts r.1.lowerName }

/-- `Matcher.getHostOffers`: return matched offers and counts, clearing both. -/
def Matcher.getHostOffers (m : Matcher) :
    (List (String × Option Offer) × List (String × Nat)) × Matcher :=
  ((m.hostOffers, m.filterResultCounts),
   { m with hostOffers := [], filterResultCounts := [] })

/-- `NewMatcher`. -/
def NewMatcher (hostFilter : HostFilter) : Matcher :=
  { hostFilter := hostFilter, hostOffers := [], filterResultCounts := [] }

end Offerpool

end Peloton

namespace Peloton.Offerpool

/-- **C4.** The matcher's effective host limit is `Quantity.MaxHosts` when that
is non-zero and `UINT32_MAX` (unlimited) when `MaxHosts` is 0; once the number
of matched hosts has reached this limit, any further host gets result
`MISMATCH_MAX_HOST_LIMIT` from `tryMatchImpl`, is not added to the matched
host-offer set, and `tryMatch` records it under the
`mismatch_max_host_limit` counter. -/
theorem C4_effective_host_limit (f : HostFilter) (m : Matcher) (hostname : String)
    (sm : SummaryMatch) (hfull : m.hostOffers.length ≥ effectiveHostLimit m.hostFilter) :
    (effectiveHostLimit f = if f.maxHosts ≠ 0 then f.maxHosts else UINT32_MAX)
    ∧ (m.tryMatchImpl hostname sm).1 = .MISMATCH_MAX_HOST_LIMIT
    ∧ (m.tryMatchImpl hostname sm).2 = m
    ∧ (m.tryMatch hostname sm).hostOffers = m.hostOffers
    ∧ (m.tryMatch hostname sm).filterResultCounts =
        bumpCount m.filterResultCounts "mismatch_max_host_limit" := by
  have hb : m.HasEnoughHosts = true := by
    simp [Matcher.HasEnoughHosts, hfull]
  refine ⟨?_, ?_, ?_, ?_, ?_⟩
  · by_cases h : f.maxHosts = 0 <;> simp [effectiveHostLimit, h]
  · simp [Matcher.tryMatchImpl, hb]
  · simp [Matcher.tryMatchImpl, hb]
  · simp [Matcher.tryMatch, Matcher.tryMatchImpl, hb]
  · simp [Matcher.tryMatch, Matcher.tryMatchImpl, hb, HostFilterResult.lowerName]

/-- **C4 witness**: a matcher holding 2 offers with `maxHosts = 2` rejects a
third host with `MISMATCH_MAX_HOST_LIMIT`. -/
theorem C4_effective_host_limit_witness :
    let m : Matcher :=
      { hostFilter := { maxHosts := 2 },
        hostOffers := [("h0", some ⟨"o0"⟩), ("h1", some ⟨"o1"⟩)],
        filterResultCounts := [] }
    (effectiveHostLimit { maxHosts := 2 } =
      if (2 : Nat) ≠ 0 then 2 else UINT32_MAX)
    ∧ (m.tryMatchImpl "h2" ⟨.MATCH, some ⟨"o2"⟩⟩).1 = .MISMATCH_MAX_HOST_LIMIT
    ∧ (m.tryMatchImpl "h2" ⟨.MATCH, some ⟨"o2"⟩⟩).2 = m
    ∧ (m.tryMatch "h2" ⟨.MATCH, some ⟨"o2"⟩⟩).hostOffers = m.hostOffers
    ∧ (m.tryMatch "h2" ⟨.MATCH, some ⟨"o2"⟩⟩).filterResultCounts =
        bumpCount m.filterResultCounts "mismatch_max_host_limit" := by
  exact C4_effective_host_limit { maxHosts := 2 } _ "h2" ⟨.MATCH, some ⟨"o2"⟩⟩
    (by decide)

/-- Keys of the matched host-offer set. -/
def hostKeys (m : Matcher) : List String := m.hostOffers.map Prod.fst

theorem alookup_isSome_of_mem [DecidableEq α] {k : α} {l : List (α × β)}
    (h : k ∈ l.map Prod.fst) : (alookup k l).isSome := by
  induction l with
  | nil => simp at h
  | cons p rest ih =>
    rw [List.map_cons, List.mem_cons] at h
    rcases h with h1 | h2
    · simp [alookup, h1.symm]
    · by_cases hp : p.1 = k
      · simp [alookup, hp]
      · simpa [alookup, hp] using ih h2

/-- **C9.** `tryMatch` is idempotent per hostname: for a hostname already in
the matched host-offer set, while the host limit has not been reached,
`tryMatchImpl` returns `MATCH` and leaves the matcher's host-offer set (indeed
the whole matcher) unchanged; moreover `tryMatch` preserves distinctness of
the hostnames in the set, so no host can appear twice in what `getHostOffers`
returns. -/
theorem C9_tryMatch_idempotent (m : Matcher) (hostname : String) (sm : SummaryMatch)
    (hmem : hostname ∈ hostKeys m) (hroom : ¬ m.HasEnoughHosts) :
    m.tryMatchImpl hostname sm = (.MATCH, m)
    ∧ (m.tryMatch hostname sm).hostOffers = m.hostOffers
    ∧ (∀ m' : Matcher, ∀ h' sm', (hostKeys m').Nodup →
        (hostKeys (m'.tryMatch h' sm')).Nodup)
    ∧ (∀ m' : Matcher, (hostKeys m').Nodup →
        ((m'.getHostOffers.1.1.map Prod.fst).Nodup)) := by
  have hsome : (alookup hostname m.hostOffers).isSome :=
    alookup_isSome_of_mem (by simpa [hostKeys] using hmem)
  have hb : m.HasEnoughHosts = false := by
    cases h : m.HasEnoughHosts
    · rfl
    · exact absurd h hroom
  refine ⟨?_, ?_, ?_, ?_⟩
  · simp [Matcher.tryMatchImpl, hb, hsome]
  · simp [Matcher.tryMatch, Matcher.tryMatchImpl, hb, hsome]
  · intro m' h' sm' hnd
    by_cases hb' : m'.HasEnoughHosts
    · simpa [Matcher.tryMatch, Matcher.tryMatchImpl, hb', hostKeys] using hnd
    · by_cases hs' : (alookup h' m'.hostOffers).isSome
      · simpa [Matcher.tryMatch, Matcher.tryMatchImpl, hb', hs', hostKeys] using hnd
      · by_cases hr' : sm'.result = .MATCH
        · have hnotmem : h' ∉ m'.hostOffers.map Prod.fst := fun hc =>
            hs' (alookup_isSome_of_mem hc)
          have hgoal : (m'.hostOffers.map Prod.fst ++ [h']).Nodup := by
            refine List.nodup_middle.mpr ?_
            rw [List.append_nil]
            exact List.nodup_cons.mpr ⟨hnotmem, by simpa [hostKeys] using hnd⟩
          simpa [Matcher.tryMatch, Matcher.tryMatchImpl, hb', hs', hr', hostKeys]
            using hgoal
        · simpa [Matcher.tryMatch, Matcher.tryMatchImpl, hb', hs', hr', hostKeys] using hnd
  · intro m' hnd
    simpa [Matcher.getHostOffers, hostKeys] using hnd

/-- **C9 witness**: a matcher already holding `h0` (limit 3) returns `MATCH`
for `h0` again and is left unchanged. -/
theorem C9_tryMatch_idempotent_witness :
    let m : Matcher :=
      { hostFilter := { maxHosts := 3 },
        hostOffers := [("h0", some ⟨"o0"⟩)],
        filterResultCounts := [] }
    m.tryMatchImpl "h0" ⟨.MISMATCH_RESOURCES, none⟩ = (.MATCH, m)
    ∧ (m.tryMatch "h0" ⟨.MISMATCH_RESOURCES, none⟩).hostOffers = m.hostOffers
    ∧ (∀ m' : Matcher, ∀ h' sm', (hostKeys m').Nodup →
        (hostKeys (m'.tryMatch h' sm')).Nodup)
    ∧ (∀ m' : Matcher, (hostKeys m').Nodup →
        ((m'.getHostOffers.1.1.map Prod.fst).Nodup)) := by
  exact C9_tryMatch_idempotent _ "h0" ⟨.MISMATCH_RESOURCES, none⟩
    (by decide) (by decide)

end Peloton.Offerpool

/-! ## Resource-manager task tracker (`resmgr/task/tracker.go`) -/

namespace Peloton.Resmgr

/-- `task.TaskState` (api/v0/task). -/
inductive TaskState where
  | INITIALIZED | PENDING | READY | PLACING | PLACED | LAUNCHING | LAUNCHED
  | STARTING | RUNNING | SUCCEEDED | FAILED | LOST | PREEMPTING | KILLING
  | KILLED | RESERVED
deriving DecidableEq, Repr

/-- `resmgr.TaskType`. -/
inductive TaskType where
  | UNKNOWN | BATCH | STATELESS | DAEMON | STATEFUL
deriving DecidableEq, Repr

/-- A task's resource allocation (`scalar.Resources`), in integral units. -/
structure Resources where
  cpu : Nat
  mem : Nat
  disk : Nat
  gpu : Nat
deriving DecidableEq, Repr

/-- The fields of an `RMTask` the tracker reads: the peloton task id
(`task.Id.Value`), the mesos task id (`task.TaskId.Value`), hostname, type,
current state-machine state, and its resource pool with the task's
allocation (`scalar.GetTaskAllocation`). -/
structure RMTask where
  id : String
  mesosTaskId : String
  hostname : String
  taskType : TaskType
  currentState : TaskState
  respoolId : String
  allocation : Resources
deriving DecidableEq, Repr

/-- `map[resmgr.TaskType]map[string]*RMTask`. -/
abbrev TypeMap := List (TaskType × List (String × RMTask))

/-- `map[string]map[resmgr.TaskType]map[string]*RMTask`. -/
abbrev Placements := List (String × TypeMap)

/-- The tracker's two indexes: `tasks` and `placements`. -/
structure Tracker where
  tasks : List (String × RMTask)
  placements : Placements
deriving DecidableEq, Repr

/-- The effect of `tracker.clearPlacement` on one host's type map
(`tr.placements[hostname]`): delete the task id from the inner map of the
task's type, then delete that type's entry if it became empty. `delete` on a
missing key or a nil map is a no-op, as in Go. -/
def clearedTypeMap (tm0 : TypeMap) (rmTask : RMTask) : TypeMap :=
  let inner1 := eraseKey rmTask.id ((alookup rmTask.taskType tm0).getD [])
  let tm1 := updateKey rmTask.taskType inner1 tm0
  if inner1.length = 0 then eraseKey rmTask.taskType tm1 else tm1

/-- `tracker.clearPlacement`: remove the task from the placements index,
following Go map semantics; when the host's entry becomes empty the host is
removed and `MarkHostDrained` is called for it — the second component lists
those calls. -/
def clearPlacement (pl : Placements) (rmTask : RMTask) : Placements × List String :=
  if rmTask.hostname = "" then (pl, [])
  else
    let tm2 := clearedTypeMap ((alookup rmTask.hostname pl).getD []) rmTask
    let pl1 := updateKey rmTask.hostname tm2 pl
    if tm2.length = 0 then (eraseKey rmTask.hostname pl1, [rmTask.hostname])
    else (pl1, [])

/-- `tracker.setPlacement` (also the body of `SetPlacement`): clear the old
placement, set the task's hostname, and index it under the new host. -/
def setPlacement (tr : Tracker) (tid : String) (hostname : String) :
    Tracker × List String :=
  match alookup tid tr.tasks with
  | none => (tr, [])
  | some rmTask =>
    let r := clearPlacement tr.placements rmTask
    let rmTask' := { rmTask with hostname := hostname }
    let tasks' := updateKey tid rmTask' tr.tasks
    let tm := (alookup hostname r.1).getD []
    let inner' := insertIfAbsent tid rmTask' ((alookup rmTask'.taskType tm).getD [])
    let tm' := if (alookup rmTask'.taskType tm).isSome then
                 updateKey rmTask'.taskType inner' tm
               else tm ++ [(rmTask'.taskType, inner')]
    let pl2 := if (alookup hostname r.1).isSome then updateKey hostname tm' r.1
               else r.1 ++ [(hostname, tm')]
    ({ tasks := tasks', placements := pl2 }, r.2)

/-- `tracker.deleteTask` (also the body of `DeleteTask`). -/
def deleteTask (tr : Tracker) (tid : String) : Tracker × List String :=
  match alookup tid tr.tasks with
  | some rmTask =>
    let r := clearPlacement tr.placements rmTask
    ({ tasks := eraseKey tid tr.tasks, placements := r.1 }, r.2)
  | none => ({ tr with tasks := eraseKey tid tr.tasks }, [])

/-- Result of a tracker mutation, with the calls made to collaborators:
`MarkHostDrained` on the host manager (`drained`),
`respool.SubtractFromAllocation` (`subtracted`, as pool id × allocation; the
pool itself is an external collaborator) and `StateMachine().Terminate()`
(`terminated`). On `err`, the Go method returned that error. -/
structure TrackerResult where
  tracker : Tracker
  err : Option String
  drained : List String
  subtracted : List (String × Resources)
  terminated : List String
deriving DecidableEq, Repr

/-- `tracker.markItDone`: drop a stale update whose mesos task id differs from
the tracker's view; otherwise subtract the allocation from the task's pool
(except in PENDING/INITIALIZED, where none was added), terminate the state
machine, and delete the task. -/
def markItDone (tr : Tracker) (t : RMTask) (mesosTaskID : String) : TrackerResult :=
  if t.mesosTaskId ≠ mesosTaskID then
    { tracker := tr, err := some ("for task " ++ t.id ++ ": mesos id in tracker is different id from event"),
      drained := [], subtracted := [], terminated := [] }
  else
    let subtracted :=
      if t.currentState = .PENDING ∨ t.currentState = .INITIALIZED then []
      else [(t.respoolId, t.allocation)]
    let r := deleteTask tr t.id
    { tracker := r.1, err := none, drained := r.2,
      subtracted := subtracted, terminated := [t.id] }

/-- `tracker.MarkItDone`. -/
def MarkItDone (tr : Tracker) (tid : String) (mesosTaskID : String) : TrackerResult :=
  match alookup tid tr.tasks with
  | none =>
    { tracker := tr, err := some ("task " ++ tid ++ " is not in tracker"),
      drained := [], subtracted := [], terminated := [] }
  | some t => markItDone tr t mesosTaskID

/-- Number of tasks of any type placed on host `h`. -/
def tasksOnHost (pl : Placements) (h : String) : Nat :=
  ((alookup h pl).getD []).foldl (fun acc p => acc + p.2.length) 0

/-- Look a task up in the placements index under (host, type, task id). -/
def placedLookup (pl : Placements) (h : String) (ty : TaskType) (tid : String) :
    Option RMTask :=
  alookup tid ((alookup ty ((alookup h pl).getD [])).getD [])

/-- Well-formedness of the placements index that the Go tracker maintains:
hosts are non-empty strings and empty inner maps are eagerly deleted
(`clearPlacement` removes them as soon as they empty). -/
def placementsWF (pl : Placements) : Bool :=
  pl.all (fun q => q.1 ≠ "" && !q.2.isEmpty && q.2.all (fun p => !p.2.isEmpty))

/-- Well-formedness the Go tracker maintains: tasks are keyed by their own id
and the placements index is well-formed. -/
def Tracker.wf (tr : Tracker) : Bool :=
  tr.tasks.all (fun p => p.2.id = p.1) && placementsWF tr.placements

end Peloton.Resmgr

namespace Peloton

theorem alookup_mem [DecidableEq α] {k : α} {v : β} : ∀ {l : List (α × β)},
    alookup k l = some v → (k, v) ∈ l := by
  intro l
  induction l with
  | nil => intro h; simp [alookup] at h
  | cons p rest ih =>
    intro h
    by_cases hp : p.1 = k
    · rw [alookup, if_pos hp] at h
      have hv : p.2 = v := Option.some.inj h
      have hkv : (k, v) = p := by
        obtain ⟨a, b⟩ := p
        simp only at hp hv
        rw [hp, hv]
      rw [hkv]
      exact List.mem_cons_self p rest
    · rw [alookup, if_neg hp] at h
      exact List.mem_cons_of_mem p (ih h)

theorem alookup_eq_none [DecidableEq α] {k : α} {l : List (α × β)}
    (h : ∀ q ∈ l, q.1 ≠ k) : alookup k l = none := by
  induction l with
  | nil => rfl
  | cons p rest ih =>
    rw [alookup, if_neg (h p (List.mem_cons_self p rest))]
    exact ih (fun q hq => h q (List.mem_cons_of_mem p hq))

theorem mem_eraseKey [DecidableEq α] {k : α} {p' : α × β} : ∀ {l : List (α × β)},
    p' ∈ eraseKey k l → p' ∈ l ∧ p'.1 ≠ k := by
  intro l
  induction l with
  | nil => intro h; simp [eraseKey] at h
  | cons p rest ih =>
    intro h
    by_cases hp : p.1 = k
    · rw [eraseKey, if_pos hp] at h
      obtain ⟨h1, h2⟩ := ih h
      exact ⟨List.mem_cons_of_mem p h1, h2⟩
    · rw [eraseKey, if_neg hp] at h
      rcases List.mem_cons.mp h with h1 | h2
      · exact ⟨h1 ▸ List.mem_cons_self p rest, h1 ▸ hp⟩
      · obtain ⟨h1, h2⟩ := ih h2
        exact ⟨List.mem_cons_of_mem p h1, h2⟩

theorem mem_updateKey [DecidableEq α] {k : α} {v : β} {p' : α × β} :
    ∀ {l : List (α × β)},
    p' ∈ updateKey k v l → p' = (k, v) ∨ (p' ∈ l ∧ p'.1 ≠ k) := by
  intro l
  induction l with
  | nil => intro h; simp [updateKey] at h
  | cons p rest ih =>
    intro h
    rw [updateKey] at h
    rcases List.mem_cons.mp h with h1 | h2
    · by_cases hp : p.1 = k
      · rw [if_pos hp] at h1
        exact Or.inl h1
      · rw [if_neg hp] at h1
        exact Or.inr ⟨h1 ▸ List.mem_cons_self p rest, h1 ▸ hp⟩
    · rcases ih h2 with h3 | ⟨h3, h4⟩
      · exact Or.inl h3
      · exact Or.inr ⟨List.mem_cons_of_mem p h3, h4⟩

theorem foldl_add_shift {γ : Type _} (f : γ → Nat) (l : List γ) : ∀ a : Nat,
    l.foldl (fun acc x => acc + f x) a = a + l.foldl (fun acc x => acc + f x) 0 := by
  induction l with
  | nil => intro a; simp
  | cons x rest ih =>
    intro a
    simp only [List.foldl_cons]
    rw [ih (a + f x), ih (0 + f x)]
    omega

theorem foldl_add_pos {γ : Type _} (f : γ → Nat) (l : List γ) (hne : l ≠ [])
    (hpos : ∀ x ∈ l, 0 < f x) : 0 < l.foldl (fun acc x => acc + f x) 0 := by
  cases l with
  | nil => exact absurd rfl hne
  | cons x rest =>
    simp only [List.foldl_cons]
    rw [foldl_add_shift]
    have := hpos x (List.mem_cons_self x rest)
    omega

end Peloton

namespace Peloton.Resmgr

open Peloton

theorem clearedTypeMap_entries (tm0 : TypeMap) (t : RMTask)
    (hwf : ∀ p ∈ tm0, p.2 ≠ []) : ∀ p ∈ clearedTypeMap tm0 t, p.2 ≠ [] := by
  intro p hp
  rw [clearedTypeMap] at hp
  by_cases hin : (eraseKey t.id ((alookup t.taskType tm0).getD [])).length = 0
  · rw [if_pos hin] at hp
    obtain ⟨hp1, hpne⟩ := mem_eraseKey hp
    rcases mem_updateKey hp1 with h1 | ⟨h2, _⟩
    · exact absurd (by rw [h1]) hpne
    · exact hwf p h2
  · rw [if_neg hin] at hp
    rcases mem_updateKey hp with h1 | ⟨h2, _⟩
    · rw [h1]
      simpa using fun hcon => hin (by rw [hcon]; rfl)
    · exact hwf p h2

theorem clearPlacement_snd (pl : Placements) (t : RMTask) (hhost : t.hostname ≠ "") :
    (clearPlacement pl t).2 =
      (if (clearedTypeMap ((alookup t.hostname pl).getD []) t).length = 0
       then [t.hostname] else []) := by
  rw [clearPlacement, if_neg hhost]
  by_cases h : (clearedTypeMap ((alookup t.hostname pl).getD []) t).length = 0
  · simp only [h, if_pos]
  · simp only [h, if_neg, ite_false]

theorem clearPlacement_fst (pl : Placements) (t : RMTask) (hhost : t.hostname ≠ "") :
    (clearPlacement pl t).1 =
      (let tm2 := clearedTypeMap ((alookup t.hostname pl).getD []) t
       if tm2.length = 0 then eraseKey t.hostname (updateKey t.hostname tm2 pl)
       else updateKey t.hostname tm2 pl) := by
  rw [clearPlacement, if_neg hhost]
  by_cases h : (clearedTypeMap ((alookup t.hostname pl).getD []) t).length = 0
  · simp only [h, if_pos]
  · simp only [h, if_neg, ite_false]

/-- Core of claim C8: after `clearPlacement`, `MarkHostDrained` was called for
the task's host exactly once if that host is left with no tasks of any type,
and not at all otherwise. -/
theorem clearPlacement_drained (pl : Placements) (t : RMTask)
    (hwf : placementsWF pl = true) (hhost : t.hostname ≠ "") :
    (clearPlacement pl t).2 =
      (if tasksOnHost (clearPlacement pl t).1 t.hostname = 0
       then [t.hostname] else []) := by
  rw [clearPlacement_snd pl t hhost, clearPlacement_fst pl t hhost]
  by_cases hlen : (clearedTypeMap ((alookup t.hostname pl).getD []) t).length = 0
  · rw [if_pos hlen]
    simp only [hlen, if_pos]
    rw [if_pos]
    rw [tasksOnHost, alookup_eraseKey_self]
    rfl
  · rw [if_neg hlen]
    simp only [hlen, ite_false]
    rw [if_neg]
    intro hzero
    -- the host still has entries, and well-formedness makes each non-empty
    cases hm : alookup t.hostname pl with
    | none =>
      apply hlen
      rw [hm] at hlen ⊢
      simp [clearedTypeMap, alookup, eraseKey, updateKey]
    | some tm0 =>
      have hmem := alookup_mem hm
      have hq := (List.all_eq_true.mp hwf) _ hmem
      simp only [Bool.and_eq_true, decide_eq_true_eq, List.all_eq_true,
        Bool.not_eq_true'] at hq
      have hentries : ∀ p ∈ clearedTypeMap tm0 t, p.2 ≠ [] := by
        apply clearedTypeMap_entries
        intro p hp
        simpa [List.isEmpty_iff] using hq.2 p hp
      have hgd : ((alookup t.hostname pl).getD []) = tm0 := by rw [hm]; rfl
      rw [hgd] at hzero hlen
      rw [tasksOnHost, alookup_updateKey_self, hm] at hzero
      simp only [Option.isSome_some, if_true, Option.getD_some] at hzero
      have hne2 : clearedTypeMap tm0 t ≠ [] := by
        intro hcon
        exact hlen (by rw [hcon]; rfl)
      have hpos : 0 < (clearedTypeMap tm0 t).foldl (fun acc p => acc + p.2.length) 0 :=
        foldl_add_pos _ _ hne2 (fun x hx => List.length_pos.mpr (hentries x hx))
      omega

end Peloton.Resmgr

namespace Peloton.Resmgr

open Peloton

theorem clearedTypeMap_lookup (tm0 : TypeMap) (t : RMTask) :
    alookup t.id ((alookup t.taskType (clearedTypeMap tm0 t)).getD []) = none := by
  rw [clearedTypeMap]
  by_cases hin : (eraseKey t.id ((alookup t.taskType tm0).getD [])).length = 0
  · simp only [hin, if_pos]
    rw [alookup_eraseKey_self]
    rfl
  · simp only [hin, ite_false]
    rw [alookup_updateKey_self]
    cases hs : (alookup t.taskType tm0).isSome
    · simp only [hs, Bool.false_eq_true, if_false]
      rfl
    · simp only [hs, if_true, Option.getD_some]
      exact alookup_eraseKey_self _ _

theorem placedLookup_clearPlacement (pl : Placements) (t : RMTask)
    (hwf : placementsWF pl = true) :
    placedLookup (clearPlacement pl t).1 t.hostname t.taskType t.id = none := by
  by_cases hhost : t.hostname = ""
  · rw [clearPlacement, if_pos hhost]
    have hnone : alookup t.hostname pl = none := by
      apply alookup_eq_none
      intro q hq
      have hq' := (List.all_eq_true.mp hwf) _ hq
      simp only [Bool.and_eq_true, decide_eq_true_eq] at hq'
      rw [hhost]
      exact hq'.1.1
    simp [placedLookup, hnone, alookup]
  · rw [clearPlacement_fst pl t hhost]
    by_cases hlen : (clearedTypeMap ((alookup t.hostname pl).getD []) t).length = 0
    · simp only [hlen, if_pos]
      rw [placedLookup, alookup_eraseKey_self]
      simp [alookup]
    · simp only [hlen, ite_false]
      rw [placedLookup, alookup_updateKey_self]
      cases hs : (alookup t.hostname pl).isSome
      · simp only [hs, Bool.false_eq_true, if_false]
        simp [alookup]
      · simp only [hs, if_true, Option.getD_some]
        exact clearedTypeMap_lookup _ t

end Peloton.Resmgr

namespace Peloton.Resmgr

/-- **C2.** For every task present in the tracker, `MarkItDone` with a mesos
task id different from the one stored in the tracker returns an error and
leaves the tracker unchanged: the task stays in both indexes, its state
machine is not terminated, no allocation is subtracted from its resource
pool, and no host is drained — the stale CM update is dropped. -/
theorem C2_markItDone_stale (tr : Tracker) (tid : String) (t : RMTask)
    (mesosTaskID : String) (hlookup : alookup tid tr.tasks = some t)
    (hne : t.mesosTaskId ≠ mesosTaskID) :
    (MarkItDone tr tid mesosTaskID).err.isSome
    ∧ (MarkItDone tr tid mesosTaskID).tracker = tr
    ∧ (MarkItDone tr tid mesosTaskID).subtracted = []
    ∧ (MarkItDone tr tid mesosTaskID).terminated = []
    ∧ (MarkItDone tr tid mesosTaskID).drained = []
    ∧ alookup tid (MarkItDone tr tid mesosTaskID).tracker.tasks = some t
    ∧ (MarkItDone tr tid mesosTaskID).tracker.placements = tr.placements := by
  have hres : MarkItDone tr tid mesosTaskID =
      { tracker := tr,
        err := some ("for task " ++ t.id ++ ": mesos id in tracker is different id from event"),
        drained := [], subtracted := [], terminated := [] } := by
    simp only [MarkItDone, hlookup]
    rw [markItDone, if_pos hne]
  rw [hres]
  exact ⟨rfl, rfl, rfl, rfl, rfl, hlookup, rfl⟩

/-- **C2 witness**: a stale mesos id is rejected and the sample tracker is
left unchanged. -/
theorem C2_markItDone_stale_witness :
    let tr : Tracker :=
      { tasks := [("testjob-0",
          { id := "testjob-0", mesosTaskId := "testjob-0-run1", hostname := "h1",
            taskType := .BATCH, currentState := .RUNNING, respoolId := "rp1",
            allocation := { cpu := 1, mem := 2, disk := 3, gpu := 0 } })],
        placements := [("h1", [(.BATCH, [("testjob-0",
          { id := "testjob-0", mesosTaskId := "testjob-0-run1", hostname := "h1",
            taskType := .BATCH, currentState := .RUNNING, respoolId := "rp1",
            allocation := { cpu := 1, mem := 2, disk := 3, gpu := 0 } })])])] }
    (MarkItDone tr "testjob-0" "stale-mesos-id").err.isSome
    ∧ (MarkItDone tr "testjob-0" "stale-mesos-id").tracker = tr
    ∧ (MarkItDone tr "testjob-0" "stale-mesos-id").subtracted = []
    ∧ (MarkItDone tr "testjob-0" "stale-mesos-id").terminated = []
    ∧ (MarkItDone tr "testjob-0" "stale-mesos-id").drained = []
    ∧ alookup "testjob-0" (MarkItDone tr "testjob-0" "stale-mesos-id").tracker.tasks =
        some { id := "testjob-0", mesosTaskId := "testjob-0-run1", hostname := "h1",
               taskType := .BATCH, currentState := .RUNNING, respoolId := "rp1",
               allocation := { cpu := 1, mem := 2, disk := 3, gpu := 0 } }
    ∧ (MarkItDone tr "testjob-0" "stale-mesos-id").tracker.placements =
        [("h1", [(.BATCH, [("testjob-0",
          { id := "testjob-0", mesosTaskId := "testjob-0-run1", hostname := "h1",
            taskType := .BATCH, currentState := .RUNNING, respoolId := "rp1",
            allocation := { cpu := 1, mem := 2, disk := 3, gpu := 0 } })])])] := by
  exact C2_markItDone_stale _ "testjob-0" _ "stale-mesos-id" (by decide) (by decide)

end Peloton.Resmgr

namespace Peloton.Resmgr

open Peloton

/-- **C3.** For every tracked task whose stored mesos task id matches the
given one, `MarkItDone` subtracts the task's allocation from its resource
pool if and only if the task's current state is neither PENDING nor
INITIALIZED, and then deletes the task from the tracker's task-id index and
from the host placement index. -/
theorem C3_markItDone_matching (tr : Tracker) (tid : String) (t : RMTask)
    (hwf : tr.wf = true) (hlookup : alookup tid tr.tasks = some t) :
    (MarkItDone tr tid t.mesosTaskId).err = none
    ∧ ((MarkItDone tr tid t.mesosTaskId).subtracted ≠ [] ↔
        ¬(t.currentState = .PENDING ∨ t.currentState = .INITIALIZED))
    ∧ (MarkItDone tr tid t.mesosTaskId).subtracted =
        (if t.currentState = .PENDING ∨ t.currentState = .INITIALIZED
         then [] else [(t.respoolId, t.allocation)])
    ∧ alookup t.id (MarkItDone tr tid t.mesosTaskId).tracker.tasks = none
    ∧ placedLookup (MarkItDone tr tid t.mesosTaskId).tracker.placements
        t.hostname t.taskType t.id = none := by
  have hwf' := hwf
  rw [Tracker.wf, Bool.and_eq_true] at hwf'
  obtain ⟨htasks, hpl⟩ := hwf'
  have hid : t.id = tid := by
    have := (List.all_eq_true.mp htasks) _ (alookup_mem hlookup)
    simpa using this
  have hlookup' : alookup t.id tr.tasks = some t := by rw [hid]; exact hlookup
  have hres : MarkItDone tr tid t.mesosTaskId =
      { tracker := { tasks := eraseKey t.id tr.tasks,
                     placements := (clearPlacement tr.placements t).1 },
        err := none,
        drained := (clearPlacement tr.placements t).2,
        subtracted := (if t.currentState = .PENDING ∨ t.currentState = .INITIALIZED
                       then [] else [(t.respoolId, t.allocation)]),
        terminated := [t.id] } := by
    simp only [MarkItDone, hlookup]
    rw [markItDone, if_neg (by simp)]
    simp only [deleteTask, hlookup']
  rw [hres]
  refine ⟨rfl, ?_, rfl, alookup_eraseKey_self t.id tr.tasks,
    placedLookup_clearPlacement tr.placements t hpl⟩
  by_cases hc : t.currentState = .PENDING ∨ t.currentState = .INITIALIZED
  · simp [hc]
  · simp [hc]

/-- **C3 witness**: completing a RUNNING task with the matching mesos id
subtracts its allocation from its pool and removes it from both indexes. -/
theorem C3_markItDone_matching_witness :
    let t : RMTask :=
      { id := "testjob-1", mesosTaskId := "testjob-1-run2", hostname := "h1",
        taskType := .BATCH, currentState := .RUNNING, respoolId := "rp1",
        allocation := { cpu := 4, mem := 8, disk := 16, gpu := 0 } }
    let tr : Tracker :=
      { tasks := [("testjob-1", t)],
        placements := [("h1", [(.BATCH, [("testjob-1", t)])])] }
    (MarkItDone tr "testjob-1" "testjob-1-run2").err = none
    ∧ ((MarkItDone tr "testjob-1" "testjob-1-run2").subtracted ≠ [] ↔
        ¬(t.currentState = .PENDING ∨ t.currentState = .INITIALIZED))
    ∧ (MarkItDone tr "testjob-1" "testjob-1-run2").subtracted =
        (if t.currentState = .PENDING ∨ t.currentState = .INITIALIZED
         then [] else [(t.respoolId, t.allocation)])
    ∧ alookup t.id (MarkItDone tr "testjob-1" "testjob-1-run2").tracker.tasks = none
    ∧ placedLookup (MarkItDone tr "testjob-1" "testjob-1-run2").tracker.placements
        t.hostname t.taskType t.id = none := by
  intro t tr
  exact C3_markItDone_matching tr "testjob-1" t (by decide) (by decide)

/-- **C8.** Removing a task's placement — via `DeleteTask`, `MarkItDone`, or
re-placement through `SetPlacement` — calls `MarkHostDrained` for the task's
host exactly once when the removal leaves the host with no tracked tasks of
any type, and not at all otherwise; each of the three operations performs
exactly the drain notifications of its single `clearPlacement` call. -/
theorem C8_host_drained (tr : Tracker) (tid : String) (t : RMTask) (newHost : String)
    (hwf : tr.wf = true) (hlookup : alookup tid tr.tasks = some t)
    (hhost : t.hostname ≠ "") :
    (clearPlacement tr.placements t).2 =
      (if tasksOnHost (clearPlacement tr.placements t).1 t.hostname = 0
       then [t.hostname] else [])
    ∧ (deleteTask tr tid).2 = (clearPlacement tr.placements t).2
    ∧ (MarkItDone tr tid t.mesosTaskId).drained = (clearPlacement tr.placements t).2
    ∧ (setPlacement tr tid newHost).2 = (clearPlacement tr.placements t).2 := by
  have hwf' := hwf
  rw [Tracker.wf, Bool.and_eq_true] at hwf'
  obtain ⟨htasks, hpl⟩ := hwf'
  have hid : t.id = tid := by
    have := (List.all_eq_true.mp htasks) _ (alookup_mem hlookup)
    simpa using this
  have hlookup' : alookup t.id tr.tasks = some t := by rw [hid]; exact hlookup
  refine ⟨clearPlacement_drained tr.placements t hpl hhost, ?_, ?_, ?_⟩
  · simp only [deleteTask, hlookup]
  · simp only [MarkItDone, hlookup]
    rw [markItDone, if_neg (by simp)]
    simp only [deleteTask, hlookup']
  · simp only [setPlacement, hlookup]

/-- **C8 witness**: completing the only task placed on `h1` drains `h1`
exactly once, through each removal entry point. -/
theorem C8_host_drained_witness :
    let t : RMTask :=
      { id := "testjob-2", mesosTaskId := "testjob-2-run1", hostname := "h1",
        taskType := .BATCH, currentState := .RUNNING, respoolId := "rp1",
        allocation := { cpu := 1, mem := 1, disk := 1, gpu := 0 } }
    let tr : Tracker :=
      { tasks := [("testjob-2", t)],
        placements := [("h1", [(.BATCH, [("testjob-2", t)])])] }
    (clearPlacement tr.placements t).2 =
      (if tasksOnHost (clearPlacement tr.placements t).1 t.hostname = 0
       then [t.hostname] else [])
    ∧ (deleteTask tr "testjob-2").2 = (clearPlacement tr.placements t).2
    ∧ (MarkItDone tr "testjob-2" t.mesosTaskId).drained =
        (clearPlacement tr.placements t).2
    ∧ (setPlacement tr "testjob-2" "h2").2 = (clearPlacement tr.placements t).2 := by
  intro t tr
  exact C8_host_drained tr "testjob-2" t "h2" (by decide) (by decide) (by decide)

end Peloton.Resmgr

/-! ## Leader-gated host-manager server (`hostmgr/server.go`) -/

namespace Peloton.Hostmgr

/-- Modelled from the spec: the leader-gated server's state variables
(`hostmgr.Server` is not among the provided sources; only its test suite
is). Times and durations are in nanoseconds, as in the Go test suite's
`currentBackoffNano`/`backoffUntilNano`. -/
structure Server where
  elected : Bool
  handlersRunning : Bool
  connected : Bool
  currentBackoff : Nat
  backoffUntil : Nat
  minBackoff : Nat
  maxBackoff : Nat
deriving DecidableEq, Repr

/-- Modelled from the spec: the backoff taken after one more consecutive
`startMesosLoop` failure — `b' = min(2·b, maxBackoff)`, starting at
`minBackoff` from zero (spec §4.6 rule table, §8 invariant "Backoff
monotonicity", and end-to-end scenario 2). -/
def nextBackoff (s : Server) : Nat :=
  if s.currentBackoff = 0 then s.minBackoff
  else min (2 * s.currentBackoff) s.maxBackoff

/-- Modelled from the spec: one `ensureStateRound` of the leader-gated
server (`hostmgr.Server.ensureStateRound` is not among the provided sources;
only its tests are — the definition follows the spec §4.6 rule table).
`startOk` is the outcome of `startMesosLoop` when the round attempts to
connect; `now` is the wall clock in nanoseconds. -/
def ensureStateRound (s : Server) (now : Nat) (startOk : Bool) : Server :=
  if !s.elected then
    -- unelected: disconnect from the CM and stop handlers
    { s with connected := false, handlersRunning := false }
  else if !s.connected then
    if now < s.backoffUntil then
      -- within the backoff window: wait
      s
    else if startOk then
      -- detect leader, startMesosLoop succeeds: reset backoff, start handlers
      { s with connected := true, currentBackoff := 0, handlersRunning := true }
    else
      -- startMesosLoop fails: double the backoff, capped at maxBackoff
      { s with currentBackoff := nextBackoff s, backoffUntil := now + nextBackoff s }
  else if !s.handlersRunning then
    { s with handlersRunning := true }
  else
    s

end Peloton.Hostmgr

namespace Peloton.Hostmgr

/-- **C1.** When the server is elected, the CM connection is not running and
the backoff window has passed: a failing `startMesosLoop` sets
`currentBackoff` to `min(2·currentBackoff, maxBackoff)` (to `minBackoff`
when it was zero) and sets `backoffUntil` to `now` plus the new backoff; a
successful `startMesosLoop` resets `currentBackoff` to 0. -/
theorem C1_backoff_double_and_reset (s : Server) (now : Nat)
    (helected : s.elected = true) (hconn : s.connected = false)
    (hwindow : s.backoffUntil ≤ now) :
    (ensureStateRound s now false).currentBackoff =
      (if s.currentBackoff = 0 then s.minBackoff
       else min (2 * s.currentBackoff) s.maxBackoff)
    ∧ (ensureStateRound s now false).backoffUntil =
        now + (ensureStateRound s now false).currentBackoff
    ∧ (ensureStateRound s now true).currentBackoff = 0 := by
  have hnotlt : ¬ now < s.backoffUntil := not_lt.mpr hwindow
  refine ⟨?_, ?_, ?_⟩ <;>
    simp [ensureStateRound, helected, hconn, hnotlt, nextBackoff]

/-- **C1 witness**: from `currentBackoff = 0` (`minBackoff = 100`,
`maxBackoff = 400`), a failed connect sets backoff 100 and
`backoffUntil = now + 100`; a successful connect resets it to 0. -/
theorem C1_backoff_double_and_reset_witness :
    let s : Server :=
      { elected := true, handlersRunning := false, connected := false,
        currentBackoff := 0, backoffUntil := 5, minBackoff := 100,
        maxBackoff := 400 }
    (ensureStateRound s 7 false).currentBackoff =
      (if s.currentBackoff = 0 then s.minBackoff
       else min (2 * s.currentBackoff) s.maxBackoff)
    ∧ (ensureStateRound s 7 false).backoffUntil =
        7 + (ensureStateRound s 7 false).currentBackoff
    ∧ (ensureStateRound s 7 true).currentBackoff = 0 := by
  intro s
  exact C1_backoff_double_and_reset s 7 (by decide) (by decide) (by decide)

end Peloton.Hostmgr

/-! ## Task launcher (modelled from the spec; `jobmgr/task/launcher` sources
are not provided — only their tests) -/

namespace Peloton.Launcher

/-- A CM (mesos) task id: the instance-identifying part plus a run id; each
re-launch mints a fresh CM task id while preserving the instance id
(spec §3, "Task"). -/
structure MesosTaskID where
  instanceKey : String
  runID : Nat
deriving DecidableEq, Repr

/-- Modelled from the spec: regeneration of a CM task id
(`util.RegenerateMesosTaskID`) — a fresh run of the same instance. -/
def regenerateMesosTaskID (m : MesosTaskID) : MesosTaskID :=
  { m with runID := m.runID + 1 }

/-- The runtime fields the launch path rewrites. -/
structure LaunchRuntime where
  mesosTaskId : MesosTaskID
  reason : String
  agentID : String
  ports : List (String × Nat)
deriving DecidableEq, Repr

/-- A task of a placement as seen by the launcher. -/
structure LaunchableTask where
  taskID : String
  runtime : LaunchRuntime
deriving DecidableEq, Repr

/-- `hostsvc.LaunchTasksResponse`: success or one of the CM error kinds. -/
inductive LaunchResponse where
  | ok
  | invalidOffers (msg : String)
  | invalidArgument (msg : String)
  | launchFailed (msg : String)
deriving DecidableEq, Repr

/-- What the launcher did in reaction to a CM launch response: runtimes
persisted (`updateTaskRuntime`), gangs re-enqueued via `EnqueueGangs`,
launch retries counted (the `launch_tasks.retry` counter), host offers
released, and the error returned to the caller (`none` = swallowed). -/
structure LaunchOutcome where
  runtimes : List (String × LaunchRuntime)
  enqueuedGangs : List (List String)
  retriesCounted : Nat
  releasedHosts : List String
  userError : Option String
deriving DecidableEq, Repr

/-- Modelled from the spec: the runtime rewrite used when a gang is
re-enqueued to the scheduler after a CM rejection — regenerated CM task id,
reason `HOST_REJECT_OFFER`, agent id and ports cleared (spec §4.4/§7; same
shape as `processor.enqueueTasks` in the provided sources). -/
def reenqueueRuntime (rt : LaunchRuntime) : LaunchRuntime :=
  { mesosTaskId := regenerateMesosTaskID rt.mesosTaskId,
    reason := "REASON_HOST_REJECT_OFFER",
    agentID := "",
    ports := [] }

/-- Modelled from the spec: the launcher's reaction to the CM response of a
LaunchTasks call (spec §4.4 "On CM error" and §7). `InvalidOffers`: release
the matched host, rewrite and persist every task's runtime via
`reenqueueRuntime`, re-enqueue the gang via `EnqueueGangs`, count no launch
retry, return no error. `InvalidArgument`/`LaunchFailed`: retry up to
`maxAttempts` (counting `maxAttempts - 1` retries), then release offers and
re-enqueue the gang likewise. -/
def processLaunchResponse (tasks : List LaunchableTask) (hostname : String)
    (maxAttempts : Nat) (resp : LaunchResponse) : LaunchOutcome :=
  match resp with
  | .ok =>
    { runtimes := [], enqueuedGangs := [], retriesCounted := 0,
      releasedHosts := [], userError := none }
  | .invalidOffers _ =>
    { runtimes := tasks.map (fun t => (t.taskID, reenqueueRuntime t.runtime)),
      enqueuedGangs := [tasks.map (fun t => t.taskID)],
      retriesCounted := 0,
      releasedHosts := [hostname],
      userError := none }
  | .invalidArgument _ =>
    { runtimes := tasks.map (fun t => (t.taskID, reenqueueRuntime t.runtime)),
      enqueuedGangs := [tasks.map (fun t => t.taskID)],
      retriesCounted := maxAttempts - 1,
      releasedHosts := [hostname],
      userError := none }
  | .launchFailed _ =>
    { runtimes := tasks.map (fun t => (t.taskID, reenqueueRuntime t.runtime)),
      enqueuedGangs := [tasks.map (fun t => t.taskID)],
      retriesCounted := maxAttempts - 1,
      releasedHosts := [hostname],
      userError := none }

end Peloton.Launcher

namespace Peloton.Launcher

/-- **C5.** When a launch fails with `InvalidOffers` from the CM, each task of
the placement is re-enqueued with a regenerated CM task id (a fresh run of
the same instance, different from the old id) and runtime reason
`HOST_REJECT_OFFER` with agent id and ports cleared; the gang is re-enqueued
via `EnqueueGangs`; no launch retry is counted; and the error is never
returned to the user. -/
theorem C5_invalid_offers_reenqueue (tasks : List LaunchableTask)
    (hostname msg : String) (maxAttempts : Nat) :
    (processLaunchResponse tasks hostname maxAttempts (.invalidOffers msg)).runtimes =
      tasks.map (fun t => (t.taskID, reenqueueRuntime t.runtime))
    ∧ (processLaunchResponse tasks hostname maxAttempts (.invalidOffers msg)).enqueuedGangs =
        [tasks.map (fun t => t.taskID)]
    ∧ (processLaunchResponse tasks hostname maxAttempts (.invalidOffers msg)).retriesCounted = 0
    ∧ (processLaunchResponse tasks hostname maxAttempts (.invalidOffers msg)).userError = none
    ∧ ∀ t ∈ tasks, ∃ rt',
        (t.taskID, rt') ∈ (processLaunchResponse tasks hostname maxAttempts
            (.invalidOffers msg)).runtimes
        ∧ rt'.mesosTaskId ≠ t.runtime.mesosTaskId
        ∧ rt'.mesosTaskId.instanceKey = t.runtime.mesosTaskId.instanceKey
        ∧ rt'.reason = "REASON_HOST_REJECT_OFFER"
        ∧ rt'.agentID = ""
        ∧ rt'.ports = [] := by
  refine ⟨rfl, rfl, rfl, rfl, ?_⟩
  intro t ht
  refine ⟨reenqueueRuntime t.runtime, ?_, ?_, rfl, rfl, rfl, rfl⟩
  · simp only [processLaunchResponse, List.mem_map]
    exact ⟨t, ht, rfl⟩
  · intro hcon
    have := congrArg MesosTaskID.runID hcon
    simp [reenqueueRuntime, regenerateMesosTaskID] at this

/-- **C5 witness**: one placed task, InvalidOffers response. -/
theorem C5_invalid_offers_reenqueue_witness :
    let t0 : LaunchableTask :=
      { taskID := "testjob-0",
        runtime := { mesosTaskId := { instanceKey := "testjob-0", runID := 1 },
                     reason := "", agentID := "agent-0",
                     ports := [("port", 100)] } }
    (processLaunchResponse [t0] "hostname-0" 5 (.invalidOffers "invalid offer failure")).runtimes =
      [t0].map (fun t => (t.taskID, reenqueueRuntime t.runtime))
    ∧ (processLaunchResponse [t0] "hostname-0" 5 (.invalidOffers "invalid offer failure")).enqueuedGangs =
        [[t0].map (fun t => t.taskID)]
    ∧ (processLaunchResponse [t0] "hostname-0" 5 (.invalidOffers "invalid offer failure")).retriesCounted = 0
    ∧ (processLaunchResponse [t0] "hostname-0" 5 (.invalidOffers "invalid offer failure")).userError = none
    ∧ ∀ t ∈ [t0], ∃ rt',
        (t.taskID, rt') ∈ (processLaunchResponse [t0] "hostname-0" 5
            (.invalidOffers "invalid offer failure")).runtimes
        ∧ rt'.mesosTaskId ≠ t.runtime.mesosTaskId
        ∧ rt'.mesosTaskId.instanceKey = t.runtime.mesosTaskId.instanceKey
        ∧ rt'.reason = "REASON_HOST_REJECT_OFFER"
        ∧ rt'.agentID = ""
        ∧ rt'.ports = [] := by
  intro t0
  exact C5_invalid_offers_reenqueue [t0] "hostname-0" "invalid offer failure" 5

/-- `volume.VolumeState`. -/
inductive VolumeState where
  | INITIALIZED | CREATED | DELETED
deriving DecidableEq, Repr

/-- A persistent-volume spec in a task config (`task.PersistentVolumeConfig`). -/
structure PersistentVolumeConfig where
  containerPath : String
  sizeMB : Nat
deriving DecidableEq, Repr

/-- One operation of a `hostsvc.OfferOperationsRequest`. -/
inductive OfferOperation where
  | reserve (sizeMB : Nat)
  | create (volumeID : String) (vol : PersistentVolumeConfig)
  | launch (taskID : String)
deriving DecidableEq, Repr

/-- The operation kind, as in `hostsvc.OfferOperation_Type`. -/
inductive OfferOperationType where
  | RESERVE | CREATE | LAUNCH
deriving DecidableEq, Repr

/-- Kind of an operation. -/
def OfferOperation.opType : OfferOperation → OfferOperationType
  | .reserve _ => .RESERVE
  | .create _ _ => .CREATE
  | .launch _ => .LAUNCH

/-- `hostsvc.OfferOperationsRequest`. -/
structure OfferOperationsRequest where
  hostname : String
  operations : List OfferOperation
deriving DecidableEq, Repr

/-- Modelled from the spec: the offer-operations request the launcher builds
for a stateful placement whose task config has a persistent-volume spec
(spec §4.4: "RESERVE → CREATE → LAUNCH, unless the volume is already in
CREATED state (then LAUNCH alone)"; the launcher sources are not provided —
their tests assert exactly three resp. one operation). `volState` is the
state `volumeStore.GetPersistentVolume` returned for the task's volume. -/
def statefulLaunchRequest (taskID volumeID : String) (vol : PersistentVolumeConfig)
    (volState : Option VolumeState) (hostname : String) : OfferOperationsRequest :=
  if volState = some .CREATED then
    { hostname := hostname, operations := [.launch taskID] }
  else
    { hostname := hostname,
      operations := [.reserve vol.sizeMB, .create volumeID vol, .launch taskID] }

/-- **C6.** For a stateful placement whose task config has a
persistent-volume spec: a volume already in CREATED state yields an
`OfferOperations` request with exactly one operation, a LAUNCH (no
RESERVE/CREATE); otherwise exactly three operations in the order
RESERVE, CREATE, LAUNCH. -/
theorem C6_stateful_operations (taskID volumeID : String)
    (vol : PersistentVolumeConfig) (volState : Option VolumeState)
    (hostname : String) :
    (volState = some .CREATED →
      (statefulLaunchRequest taskID volumeID vol volState hostname).operations.map
          OfferOperation.opType = [.LAUNCH]
      ∧ (statefulLaunchRequest taskID volumeID vol volState hostname).operations.length = 1)
    ∧ (volState ≠ some .CREATED →
      (statefulLaunchRequest taskID volumeID vol volState hostname).operations.map
          OfferOperation.opType = [.RESERVE, .CREATE, .LAUNCH]
      ∧ (statefulLaunchRequest taskID volumeID vol volState hostname).operations.length = 3) := by
  constructor
  · intro hc
    rw [statefulLaunchRequest, if_pos hc]
    exact ⟨rfl, rfl⟩
  · intro hc
    rw [statefulLaunchRequest, if_neg hc]
    exact ⟨rfl, rfl⟩

/-- **C6 witness**: both volume states, on a concrete task/volume. -/
theorem C6_stateful_operations_witness :
    let vol : PersistentVolumeConfig := { containerPath := "testpath", sizeMB := 10 }
    ((statefulLaunchRequest "testjob-0" "vol-0" vol (some .CREATED)
        "hostname-0").operations.map OfferOperation.opType = [.LAUNCH]
      ∧ (statefulLaunchRequest "testjob-0" "vol-0" vol (some .CREATED)
          "hostname-0").operations.length = 1)
    ∧ ((statefulLaunchRequest "testjob-0" "vol-0" vol (some .INITIALIZED)
        "hostname-0").operations.map OfferOperation.opType =
          [.RESERVE, .CREATE, .LAUNCH]
      ∧ (statefulLaunchRequest "testjob-0" "vol-0" vol (some .INITIALIZED)
          "hostname-0").operations.length = 3) := by
  intro vol
  exact ⟨(C6_stateful_operations "testjob-0" "vol-0" vol (some .CREATED)
      "hostname-0").1 rfl,
    (C6_stateful_operations "testjob-0" "vol-0" vol (some .INITIALIZED)
      "hostname-0").2 (by decide)⟩

end Peloton.Launcher

/-! ## Placement processor (`jobmgr/task/placement/placement.go`) -/

namespace Peloton.Jobmgr

open Peloton

/-- The task-runtime fields `ProcessPlacement` reads from the cached task. -/
structure RuntimeInfo where
  state : Resmgr.TaskState
  goalState : Resmgr.TaskState
deriving DecidableEq, Repr

/-- An entry of the map `GetLaunchableTasks` returns. -/
structure TaskInfo where
  jobID : String
  instanceID : Nat
  runtime : RuntimeInfo
deriving DecidableEq, Repr

/-- Outcome of one `cachedJob.UpdateTasks` attempt: success, transient
store error, or non-transient store error. -/
inductive UpdateResult where
  | ok | transient | nonTransient
deriving DecidableEq, Repr

/-- `maxRetryCount` in `placement.go`. -/
def maxRetryCount : Nat := 1000

/-- The `retry < maxRetryCount` update loop inside `ProcessPlacement`:
`true` iff the task stays in the launch map (the update succeeded, or the
transient retries were exhausted without a non-transient error), `false`
iff the task is deleted from it (non-transient error). `upd r` is the
outcome of `cachedJob.UpdateTasks` at attempt `r`. -/
def updateLoop (upd : Nat → UpdateResult) : Nat → Nat → Bool
  | _, 0 => true
  | r, fuel + 1 =>
    match upd r with
    | .ok => true
    | .nonTransient => false
    | .transient => updateLoop upd (r + 1) fuel

/-- What `ProcessPlacement` does after its per-task loop: the tasks left in
`taskInfos` are handed to the task launcher as the launch set (`launched`);
`killRetries` are the goal-state-driver enqueues issued for placed tasks
whose goal became KILLED while their state is not yet KILLED. -/
structure ProcessOutcome where
  launched : List (String × TaskInfo)
  killRetries : List String
deriving DecidableEq, Repr

/-- The per-task loop of `processor.ProcessPlacement` over the map returned
by `GetLaunchableTasks`. `parse` is `util.ParseTaskID` (`none` = parse
error → `continue`), `getRunTime` is `cachedTask.GetRunTime` (`none` = error
→ `continue`), `upd tid r` the outcome of attempt `r` of
`cachedJob.UpdateTasks` for `tid`. A task whose (cached) goal state is
KILLED is deleted from the map, enqueuing a kill retry when its state is not
yet KILLED; a non-transient update error also deletes the task. -/
def processTaskInfos (parse : String → Option (String × Nat))
    (getRunTime : String → Option RuntimeInfo)
    (upd : String → Nat → UpdateResult) :
    List (String × TaskInfo) → List (String × TaskInfo) × List String
  | [] => ([], [])
  | (tid, ti) :: rest =>
    let r := processTaskInfos parse getRunTime upd rest
    match parse tid with
    | none => ((tid, ti) :: r.1, r.2)
    | some _ =>
      match getRunTime tid with
      | none => ((tid, ti) :: r.1, r.2)
      | some rt =>
        if rt.goalState = .KILLED then
          (r.1, (if rt.state ≠ .KILLED then [tid] else []) ++ r.2)
        else if updateLoop (upd tid) 0 maxRetryCount then
          ((tid, ti) :: r.1, r.2)
        else
          (r.1, r.2)

/-- `processor.ProcessPlacement` after `GetLaunchableTasks` succeeded: run the
per-task loop; the remaining tasks are the launch set handed to
`taskLauncher.ProcessPlacement` (an empty set means no CM LAUNCH call at
all). -/
def ProcessPlacement (parse : String → Option (String × Nat))
    (getRunTime : String → Option RuntimeInfo)
    (upd : String → Nat → UpdateResult)
    (taskInfos : List (String × TaskInfo)) : ProcessOutcome :=
  let r := processTaskInfos parse getRunTime upd taskInfos
  { launched := r.1, killRetries := r.2 }

theorem processTaskInfos_killed_not_launched (parse : String → Option (String × Nat))
    (getRunTime : String → Option RuntimeInfo) (upd : String → Nat → UpdateResult)
    (tid : String) (rt : RuntimeInfo) (hparse : (parse tid).isSome)
    (hrt : getRunTime tid = some rt) (hgoal : rt.goalState = .KILLED) :
    ∀ l : List (String × TaskInfo),
      tid ∉ (processTaskInfos parse getRunTime upd l).1.map Prod.fst := by
  intro l
  induction l with
  | nil => simp [processTaskInfos]
  | cons p rest ih =>
    obtain ⟨tid', ti'⟩ := p
    by_cases heq : tid' = tid
    · subst heq
      obtain ⟨pr, hpr⟩ := Option.isSome_iff_exists.mp hparse
      simp only [processTaskInfos, hpr, hrt, hgoal, if_pos]
      simpa using ih
    · rw [processTaskInfos]
      cases hp : parse tid' with
      | none =>
        simp only [List.map_cons, List.mem_cons]
        intro hc
        rcases hc with hc | hc
        · exact heq hc.symm
        · exact ih hc
      | some pr' =>
        cases hg : getRunTime tid' with
        | none =>
          simp only [List.map_cons, List.mem_cons]
          intro hc
          rcases hc with hc | hc
          · exact heq hc.symm
          · exact ih hc
        | some rt' =>
          by_cases hgoal' : rt'.goalState = Resmgr.TaskState.KILLED
          · simpa [hgoal', if_pos] using ih
          · by_cases hkeep : updateLoop (upd tid') 0 maxRetryCount
            · simp only [hgoal', ite_false, hkeep, if_pos, List.map_cons,
                List.mem_cons]
              intro hc
              rcases hc with hc | hc
              · exact heq hc.symm
              · exact ih hc
            · simpa [hgoal', hkeep] using ih

theorem processTaskInfos_kill_retry (parse : String → Option (String × Nat))
    (getRunTime : String → Option RuntimeInfo) (upd : String → Nat → UpdateResult)
    (tid : String) (rt : RuntimeInfo) (hparse : (parse tid).isSome)
    (hrt : getRunTime tid = some rt) (hgoal : rt.goalState = .KILLED)
    (hstate : rt.state ≠ .KILLED) :
    ∀ (l : List (String × TaskInfo)) (ti : TaskInfo), (tid, ti) ∈ l →
      tid ∈ (processTaskInfos parse getRunTime upd l).2 := by
  intro l
  induction l with
  | nil => intro ti h; simp at h
  | cons p rest ih =>
    intro ti hmem
    obtain ⟨tid', ti'⟩ := p
    rcases List.mem_cons.mp hmem with hc | hc
    · obtain ⟨h1, _⟩ := Prod.mk.injEq .. ▸ hc
      injection hc.symm with h1' h2'
      subst h1'
      obtain ⟨pr, hpr⟩ := Option.isSome_iff_exists.mp hparse
      simp [processTaskInfos, hpr, hrt, hgoal, hstate]
    · have hrec := ih ti hc
      rw [processTaskInfos]
      cases hp : parse tid' with
      | none => simpa using hrec
      | some pr' =>
        cases hg : getRunTime tid' with
        | none => simpa using hrec
        | some rt' =>
          by_cases hgoal' : rt'.goalState = Resmgr.TaskState.KILLED
          · simp only [hgoal', if_pos]
            simp only [List.mem_append]
            exact Or.inr hrec
          · by_cases hkeep : updateLoop (upd tid') 0 maxRetryCount
            · simpa [hgoal', hkeep] using hrec
            · simpa [hgoal', hkeep] using hrec

end Peloton.Jobmgr

namespace Peloton.Jobmgr

/-- **C7.** `ProcessPlacement` never launches a task whose (cached) goal
state is KILLED: every such task of the placement is removed from the launch
set, so no CM LAUNCH is issued for it, and when its current state is not yet
KILLED it is re-enqueued to the goal-state driver to retry the kill. -/
theorem C7_killed_not_launched (parse : String → Option (String × Nat))
    (getRunTime : String → Option RuntimeInfo) (upd : String → Nat → UpdateResult)
    (taskInfos : List (String × TaskInfo)) (tid : String) (ti : TaskInfo)
    (rt : RuntimeInfo) (hmem : (tid, ti) ∈ taskInfos)
    (hparse : (parse tid).isSome) (hrt : getRunTime tid = some rt)
    (hgoal : rt.goalState = .KILLED) :
    tid ∉ (ProcessPlacement parse getRunTime upd taskInfos).launched.map Prod.fst
    ∧ (rt.state ≠ .KILLED →
        tid ∈ (ProcessPlacement parse getRunTime upd taskInfos).killRetries) := by
  constructor
  · exact processTaskInfos_killed_not_launched parse getRunTime upd tid rt
      hparse hrt hgoal taskInfos
  · intro hstate
    exact processTaskInfos_kill_retry parse getRunTime upd tid rt
      hparse hrt hgoal hstate taskInfos ti hmem

/-- **C7 witness**: a single placed task with goal KILLED and state RUNNING
is not launched and its kill is re-enqueued. -/
theorem C7_killed_not_launched_witness :
    let rt : RuntimeInfo := { state := .RUNNING, goalState := .KILLED }
    let ti : TaskInfo := { jobID := "testjob", instanceID := 0, runtime := rt }
    "testjob-0" ∉ (ProcessPlacement (fun s => some (s, 0)) (fun _ => some rt)
        (fun _ _ => .ok) [("testjob-0", ti)]).launched.map Prod.fst
    ∧ (rt.state ≠ .KILLED →
        "testjob-0" ∈ (ProcessPlacement (fun s => some (s, 0)) (fun _ => some rt)
          (fun _ _ => .ok) [("testjob-0", ti)]).killRetries) := by
  intro rt ti
  exact C7_killed_not_launched (fun s => some (s, 0)) (fun _ => some rt)
    (fun _ _ => .ok) [("testjob-0", ti)] "testjob-0" ti rt
    (by simp) (by decide) rfl rfl

end Peloton.Jobmgr

/-! ## Task-config validation (`jobmgr/job/config/validate.go`) -/

namespace Peloton.Jobconfig

open Peloton

/-- `task.PortConfig`. -/
structure PortConfig where
  name : String
  value : Nat
  envName : String
deriving DecidableEq, Repr

/-- `task.RestartPolicy`. -/
structure RestartPolicy where
  maxFailures : Nat
deriving DecidableEq, Repr

/-- `mesos.CommandInfo` (opaque here). -/
structure CommandInfo where
  value : String
deriving DecidableEq, Repr

/-- The fields of `task.TaskConfig` the validator reads. -/
structure TaskConfig where
  name : String
  ports : List PortConfig
  restartPolicy : Option RestartPolicy
  command : Option CommandInfo
deriving DecidableEq, Repr

/-- `job.SlaConfig` fields the validator reads. -/
structure SlaConfig where
  maximumRunningInstances : Nat
  minimumRunningInstances : Nat
deriving DecidableEq, Repr

/-- The fields of `job.JobConfig` the validator reads. -/
structure JobConfig where
  instanceCount : Nat
  defaultConfig : Option TaskConfig
  instanceConfig : List (Nat × TaskConfig)
  sla : Option SlaConfig
deriving DecidableEq, Repr

/-- The errors `validateTaskConfigWithRange`/`validatePortConfig` can return.
There is none for excessive `MaxFailures`. -/
inductive ValidationError where
  | portNameMissing
  | portEnvNameMissing
  | tooManyTasks (requested limit : Nat)
  | missingTaskConfig (i : Nat)
  | missingCommand (i : Nat)
  | maxInstancesTooBig
deriving DecidableEq, Repr

/-- `_maxTaskRetries = 100`. -/
def maxTaskRetries : Nat := 100

/-- Go nil-safe getter `GetPorts`. -/
def getPorts : Option TaskConfig → List PortConfig
  | none => []
  | some tc => tc.ports

/-- Go nil-safe getter `GetRestartPolicy`. -/
def getRestartPolicy : Option TaskConfig → Option RestartPolicy
  | none => none
  | some tc => tc.restartPolicy

/-- Go nil-safe getter `GetMaxFailures` (0 on nil). -/
def getMaxFailures : Option RestartPolicy → Nat
  | none => 0
  | some p => p.maxFailures

/-- Go nil-safe getter `GetCommand`. -/
def getCommand : Option TaskConfig → Option CommandInfo
  | none => none
  | some tc => tc.command

/-- Go nil-safe getter `GetSLA().GetMaximumRunningInstances()`. -/
def getMaxRunning : Option SlaConfig → Nat
  | none => 0
  | some s => s.maximumRunningInstances

/-- Go nil-safe getter `GetSLA().GetMinimumRunningInstances()`. -/
def getMinRunning : Option SlaConfig → Nat
  | none => 0
  | some s => s.minimumRunningInstances

/-- `jobConfig.GetInstanceConfig()[i]` (nil when absent). -/
def getInstanceConfig (jc : JobConfig) (i : Nat) : Option TaskConfig :=
  alookup i jc.instanceConfig

/-- `validatePortConfig`: port name must be set; a dynamic port (value 0)
must have an env name. -/
def validatePortConfig : List PortConfig → Option ValidationError
  | [] => none
  | p :: rest =>
    if p.name.length = 0 then some .portNameMissing
    else if p.value = 0 ∧ p.envName.length = 0 then some .portEnvNameMissing
    else validatePortConfig rest

/-- The clamp `if restartPolicy.GetMaxFailures() > _maxTaskRetries {
restartPolicy.MaxFailures = _maxTaskRetries }` applied to a policy value. -/
def clampPolicy (p : RestartPolicy) : RestartPolicy :=
  if p.maxFailures > maxTaskRetries then { p with maxFailures := maxTaskRetries }
  else p

/-- Write-back of the clamp when the effective policy lives in the default
task config (the Go code mutates it through the shared pointer). -/
def clampDefault (jc : JobConfig) : JobConfig :=
  match jc.defaultConfig with
  | some dc =>
    match dc.restartPolicy with
    | some p =>
      { jc with defaultConfig := some { dc with restartPolicy := some (clampPolicy p) } }
    | none => jc
  | none => jc

/-- The `restartPolicy` block of one loop iteration of
`validateTaskConfigWithRange`: the effective policy is the instance's own
when set, else the default config's; `MaxFailures > 100` is clamped to 100
*in place* on whichever config owns the policy. -/
def clampAt (jc : JobConfig) (i : Nat) : JobConfig :=
  match getInstanceConfig jc i with
  | some tc =>
    match tc.restartPolicy with
    | some p =>
      { jc with instanceConfig :=
          updateKey i { tc with restartPolicy := some (clampPolicy p) } jc.instanceConfig }
    | none => clampDefault jc
  | none => clampDefault jc

/-- The `for i := from; i < to; i++` loop of `validateTaskConfigWithRange`
(`n` counts the remaining iterations, `i` the current instance): missing
config, invalid port config, and missing command abort with an error; the
restart-policy clamp mutates the config and continues. Returns the mutated
config and the error, if any. -/
def validateInstances : JobConfig → Nat → Nat → JobConfig × Option ValidationError
  | jc, _, 0 => (jc, none)
  | jc, i, n + 1 =>
    let taskConfig := getInstanceConfig jc i
    if taskConfig = none ∧ jc.defaultConfig = none then
      (jc, some (.missingTaskConfig i))
    else
      let jc1 := clampAt jc i
      match validatePortConfig (getPorts taskConfig) with
      | some e => (jc1, some e)
      | none =>
        let cmd := match getCommand taskConfig with
                   | some c => some c
                   | none => getCommand jc1.defaultConfig
        if cmd = none then (jc1, some (.missingCommand i))
        else validateInstances jc1 (i + 1) n

/-- `validateTaskConfigWithRange jobConfig maxTasksPerJob from to`: validate
the default config's ports, the task count, the instances in `[lo, hi)`,
and the SLA min/max running-instances bounds. Returns the (possibly
mutated) config together with the error, if any. -/
def validateTaskConfigWithRange (jc : JobConfig) (maxTasksPerJob : Nat)
    (lo hi : Nat) : JobConfig × Option ValidationError :=
  match validatePortConfig (getPorts jc.defaultConfig) with
  | some e => (jc, some e)
  | none =>
    if jc.instanceCount > maxTasksPerJob then
      (jc, some (.tooManyTasks jc.instanceCount maxTasksPerJob))
    else
      match validateInstances jc lo (hi - lo) with
      | (jc', some e) => (jc', some e)
      | (jc', none) =>
        let maxR := getMaxRunning jc'.sla
        if maxR = 0 then
          (if getMinRunning jc'.sla > jc'.instanceCount
           then (jc', some .maxInstancesTooBig) else (jc', none))
        else if maxR > jc'.instanceCount then (jc', some .maxInstancesTooBig)
        else if getMinRunning jc'.sla > maxR then (jc', some .maxInstancesTooBig)
        else (jc', none)

/-- `ValidateTaskConfig`. -/
def ValidateTaskConfig (jc : JobConfig) (maxTasksPerJob : Nat) :
    JobConfig × Option ValidationError :=
  validateTaskConfigWithRange jc maxTasksPerJob 0 jc.instanceCount

/-- The effective restart policy of instance `i`: its own when set, else the
default config's. -/
def effRestartPolicy (jc : JobConfig) (i : Nat) : Option RestartPolicy :=
  match getRestartPolicy (getInstanceConfig jc i) with
  | some p => some p
  | none => getRestartPolicy jc.defaultConfig

/-- `MaxFailures` of the effective restart policy of instance `i`. -/
def effMaxFailures (jc : JobConfig) (i : Nat) : Nat :=
  getMaxFailures (effRestartPolicy jc i)

end Peloton.Jobconfig

namespace Peloton.Jobconfig

open Peloton

theorem clampPolicy_maxFailures (p : RestartPolicy) :
    (clampPolicy p).maxFailures = min p.maxFailures maxTaskRetries := by
  rw [clampPolicy]
  by_cases h : p.maxFailures > maxTaskRetries
  · rw [if_pos h]
    exact (Nat.min_eq_right (Nat.le_of_lt h)).symm
  · rw [if_neg h]
    exact (Nat.min_eq_left (Nat.le_of_not_lt h)).symm

theorem getInstanceConfig_clampDefault (jc : JobConfig) (k : Nat) :
    getInstanceConfig (clampDefault jc) k = getInstanceConfig jc k := by
  cases hdc : jc.defaultConfig with
  | none => simp [clampDefault, hdc]
  | some dc =>
    cases hp : dc.restartPolicy with
    | none => simp [clampDefault, hdc, hp]
    | some p => simp [clampDefault, hdc, hp, getInstanceConfig]

theorem clampDefault_policy (jc : JobConfig) :
    getRestartPolicy (clampDefault jc).defaultConfig =
      Option.map clampPolicy (getRestartPolicy jc.defaultConfig) := by
  cases hdc : jc.defaultConfig with
  | none => simp [clampDefault, hdc, getRestartPolicy]
  | some dc =>
    cases hp : dc.restartPolicy with
    | none => simp [clampDefault, hdc, hp, getRestartPolicy]
    | some p => simp [clampDefault, hdc, hp, getRestartPolicy]

theorem clampAt_instanceConfig_ne (jc : JobConfig) (i k : Nat) (h : i ≠ k) :
    getInstanceConfig (clampAt jc i) k = getInstanceConfig jc k := by
  cases hic : getInstanceConfig jc i with
  | some tc =>
    cases hp : tc.restartPolicy with
    | some p =>
      simp only [clampAt, hic, hp]
      simp only [getInstanceConfig]
      exact alookup_updateKey_ne i k _ _ h
    | none =>
      simp only [clampAt, hic, hp]
      exact getInstanceConfig_clampDefault jc k
  | none =>
    simp only [clampAt, hic]
    exact getInstanceConfig_clampDefault jc k

theorem clampAt_defaultPolicy (jc : JobConfig) (i : Nat) :
    getRestartPolicy (clampAt jc i).defaultConfig = getRestartPolicy jc.defaultConfig
    ∨ getRestartPolicy (clampAt jc i).defaultConfig =
        Option.map clampPolicy (getRestartPolicy jc.defaultConfig) := by
  cases hic : getInstanceConfig jc i with
  | some tc =>
    cases hp : tc.restartPolicy with
    | some p =>
      left
      simp only [clampAt, hic, hp]
    | none =>
      right
      simp only [clampAt, hic, hp]
      exact clampDefault_policy jc
  | none =>
    right
    simp only [clampAt, hic]
    exact clampDefault_policy jc

theorem effMaxFailures_inst (jc : JobConfig) (i : Nat) (p : RestartPolicy)
    (h1 : getRestartPolicy (getInstanceConfig jc i) = some p) :
    effMaxFailures jc i = p.maxFailures := by
  simp only [effMaxFailures, effRestartPolicy, h1, getMaxFailures]

theorem effMaxFailures_dflt (jc : JobConfig) (i : Nat)
    (h1 : getRestartPolicy (getInstanceConfig jc i) = none) :
    effMaxFailures jc i = getMaxFailures (getRestartPolicy jc.defaultConfig) := by
  simp only [effMaxFailures, effRestartPolicy, h1]

theorem getMaxFailures_map_clamp (o : Option RestartPolicy) :
    getMaxFailures (Option.map clampPolicy o) = min (getMaxFailures o) maxTaskRetries := by
  cases o with
  | none => simp [getMaxFailures]
  | some q => simp [getMaxFailures, clampPolicy_maxFailures]

theorem effMaxFailures_clampAt_self (jc : JobConfig) (i : Nat) :
    effMaxFailures (clampAt jc i) i = min (effMaxFailures jc i) maxTaskRetries := by
  cases hic : getInstanceConfig jc i with
  | some tc =>
    cases hp : tc.restartPolicy with
    | some p =>
      have hsome : (alookup i jc.instanceConfig).isSome := by
        rw [show alookup i jc.instanceConfig = some tc from hic]
        rfl
      have hlook : getInstanceConfig (clampAt jc i) i =
          some { tc with restartPolicy := some (clampPolicy p) } := by
        simp only [clampAt, hic, hp]
        simp only [getInstanceConfig]
        rw [alookup_updateKey_self]
        simp [hsome]
      have e1 := effMaxFailures_inst (clampAt jc i) i (clampPolicy p)
        (by rw [hlook]; rfl)
      have e2 := effMaxFailures_inst jc i p (by rw [hic]; exact hp)
      rw [e1, e2, clampPolicy_maxFailures]
    | none =>
      have h1 : getInstanceConfig (clampAt jc i) i = some tc := by
        simp only [clampAt, hic, hp]
        rw [getInstanceConfig_clampDefault]
        exact hic
      have h2 : getRestartPolicy (clampAt jc i).defaultConfig =
          Option.map clampPolicy (getRestartPolicy jc.defaultConfig) := by
        simp only [clampAt, hic, hp]
        exact clampDefault_policy jc
      have e1 := effMaxFailures_dflt (clampAt jc i) i (by rw [h1]; exact hp)
      have e2 := effMaxFailures_dflt jc i (by rw [hic]; exact hp)
      rw [e1, e2, h2, getMaxFailures_map_clamp]
  | none =>
    have h1 : getInstanceConfig (clampAt jc i) i = none := by
      simp only [clampAt, hic]
      rw [getInstanceConfig_clampDefault]
      exact hic
    have h2 : getRestartPolicy (clampAt jc i).defaultConfig =
        Option.map clampPolicy (getRestartPolicy jc.defaultConfig) := by
      simp only [clampAt, hic]
      exact clampDefault_policy jc
    have e1 := effMaxFailures_dflt (clampAt jc i) i (by rw [h1]; rfl)
    have e2 := effMaxFailures_dflt jc i (by rw [hic]; rfl)
    rw [e1, e2, h2, getMaxFailures_map_clamp]

theorem effMaxFailures_clampAt_min (jc : JobConfig) (i k : Nat) :
    min (effMaxFailures (clampAt jc i) k) maxTaskRetries =
      min (effMaxFailures jc k) maxTaskRetries := by
  by_cases hk : k = i
  · subst hk
    rw [effMaxFailures_clampAt_self]
    rw [Nat.min_assoc, Nat.min_self]
  · have hconf := clampAt_instanceConfig_ne jc i k (fun hx => hk hx.symm)
    cases hkp : getRestartPolicy (getInstanceConfig jc k) with
    | some q =>
      have e1 := effMaxFailures_inst (clampAt jc i) k q (by rw [hconf]; exact hkp)
      have e2 := effMaxFailures_inst jc k q hkp
      rw [e1, e2]
    | none =>
      have e1 := effMaxFailures_dflt (clampAt jc i) k (by rw [hconf]; exact hkp)
      have e2 := effMaxFailures_dflt jc k hkp
      rw [e1, e2]
      rcases clampAt_defaultPolicy jc i with hd | hd
      · rw [hd]
      · rw [hd, getMaxFailures_map_clamp, Nat.min_assoc, Nat.min_self]

theorem effMaxFailures_clampAt_le (jc : JobConfig) (i k : Nat)
    (h : effMaxFailures jc k ≤ maxTaskRetries) :
    effMaxFailures (clampAt jc i) k = effMaxFailures jc k := by
  by_cases hk : k = i
  · subst hk
    rw [effMaxFailures_clampAt_self]
    exact Nat.min_eq_left h
  · have hconf := clampAt_instanceConfig_ne jc i k (fun hx => hk hx.symm)
    cases hkp : getRestartPolicy (getInstanceConfig jc k) with
    | some q =>
      have e1 := effMaxFailures_inst (clampAt jc i) k q (by rw [hconf]; exact hkp)
      have e2 := effMaxFailures_inst jc k q hkp
      rw [e1, e2]
    | none =>
      have e1 := effMaxFailures_dflt (clampAt jc i) k (by rw [hconf]; exact hkp)
      have e2 := effMaxFailures_dflt jc k hkp
      rw [e2] at h
      rw [e1, e2]
      rcases clampAt_defaultPolicy jc i with hd | hd
      · rw [hd]
      · rw [hd, getMaxFailures_map_clamp]
        exact Nat.min_eq_left h

end Peloton.Jobconfig

namespace Peloton.Jobconfig

open Peloton

theorem validateInstances_clamps : ∀ (n i : Nat) (jc : JobConfig),
    (validateInstances jc i n).2 = none →
    (∀ k, i ≤ k → k < i + n →
      effMaxFailures (validateInstances jc i n).1 k =
        min (effMaxFailures jc k) maxTaskRetries)
    ∧ (∀ k, effMaxFailures jc k ≤ maxTaskRetries →
      effMaxFailures (validateInstances jc i n).1 k = effMaxFailures jc k) := by
  intro n
  induction n with
  | zero =>
    intro i jc _
    refine ⟨?_, ?_⟩
    · intro k h1 h2
      omega
    · intro k _
      rfl
  | succ n ih =>
    intro i jc hok
    by_cases hmc : (getInstanceConfig jc i = none ∧ jc.defaultConfig = none)
    · exfalso
      simp [validateInstances, hmc.1, hmc.2] at hok
    · cases hpc : validatePortConfig (getPorts (getInstanceConfig jc i)) with
      | some e =>
        exfalso
        simp only [validateInstances, hmc, ite_false, hpc] at hok
        exact Option.noConfusion hok
      | none =>
        by_cases hcm : (match getCommand (getInstanceConfig jc i) with
            | some c => some c
            | none => getCommand (clampAt jc i).defaultConfig) = none
        · exfalso
          simp only [validateInstances, hmc, ite_false, hpc, hcm, if_pos] at hok
          exact Option.noConfusion hok
        · have hstep : validateInstances jc i (n + 1) =
              validateInstances (clampAt jc i) (i + 1) n := by
            simp only [validateInstances, hmc, ite_false, hpc, hcm, if_neg]
          rw [hstep] at hok ⊢
          obtain ⟨ih1, ih2⟩ := ih (i + 1) (clampAt jc i) hok
          refine ⟨?_, ?_⟩
          · intro k hk1 hk2
            by_cases hk : k = i
            · subst hk
              have h1 : effMaxFailures (clampAt jc k) k =
                  min (effMaxFailures jc k) maxTaskRetries :=
                effMaxFailures_clampAt_self jc k
              have h2 : effMaxFailures (clampAt jc k) k ≤ maxTaskRetries := by
                rw [h1]
                exact Nat.min_le_right _ _
              rw [ih2 k h2, h1]
            · have hk1' : i + 1 ≤ k := by omega
              have hk2' : k < (i + 1) + n := by omega
              rw [ih1 k hk1' hk2']
              exact effMaxFailures_clampAt_min jc i k
          · intro k hle
            have h3 : effMaxFailures (clampAt jc i) k = effMaxFailures jc k :=
              effMaxFailures_clampAt_le jc i k hle
            rw [ih2 k (by rw [h3]; exact hle), h3]

end Peloton.Jobconfig

namespace Peloton.Jobconfig

open Peloton

theorem validateTaskConfigWithRange_ok (jc : JobConfig) (maxT lo hi : Nat)
    (hok : (validateTaskConfigWithRange jc maxT lo hi).2 = none) :
    (validateTaskConfigWithRange jc maxT lo hi).1 =
      (validateInstances jc lo (hi - lo)).1
    ∧ (validateInstances jc lo (hi - lo)).2 = none := by
  cases hpc : validatePortConfig (getPorts jc.defaultConfig) with
  | some e =>
    exfalso
    simp only [validateTaskConfigWithRange, hpc] at hok
    exact Option.noConfusion hok
  | none =>
    by_cases hcnt : jc.instanceCount > maxT
    · exfalso
      simp only [validateTaskConfigWithRange, hpc] at hok
      rw [if_pos hcnt] at hok
      exact Option.noConfusion hok
    · rcases hvi : validateInstances jc lo (hi - lo) with ⟨jc', err⟩
      cases err with
      | some e =>
        exfalso
        have h2 : (validateTaskConfigWithRange jc maxT lo hi).2 = some e := by
          simp only [validateTaskConfigWithRange, hpc]
          rw [if_neg hcnt]
          simp only [hvi]
        rw [h2] at hok
        exact Option.noConfusion hok
      | none =>
        have hfst : (validateTaskConfigWithRange jc maxT lo hi).1 = jc' := by
          simp only [validateTaskConfigWithRange, hpc]
          rw [if_neg hcnt]
          simp only [hvi]
          split_ifs <;> rfl
        constructor
        · rw [hfst]
        · rfl

/-- **C10 counterexample.** The claim as stated fails on the code: when
validation aborts at an earlier instance (here instance 0 has a port with no
name), a later instance whose effective restart policy has
`MaxFailures = 500 > 100` is left at 500 — `ValidateTaskConfig` reports the
port error and never reaches (so never clamps) that policy. -/
theorem C10_counterexample :
    effMaxFailures
      { instanceCount := 2,
        defaultConfig := some { name := "d", ports := [], restartPolicy := none,
                                command := some { value := "echo" } },
        instanceConfig :=
          [(0, { name := "t0",
                 ports := [{ name := "", value := 0, envName := "" }],
                 restartPolicy := none, command := some { value := "echo" } }),
           (1, { name := "t1", ports := [],
                 restartPolicy := some { maxFailures := 500 },
                 command := some { value := "echo" } })],
        sla := none } 1 = 500
    ∧ (ValidateTaskConfig
      { instanceCount := 2,
        defaultConfig := some { name := "d", ports := [], restartPolicy := none,
                                command := some { value := "echo" } },
        instanceConfig :=
          [(0, { name := "t0",
                 ports := [{ name := "", value := 0, envName := "" }],
                 restartPolicy := none, command := some { value := "echo" } }),
           (1, { name := "t1", ports := [],
                 restartPolicy := some { maxFailures := 500 },
                 command := some { value := "echo" } })],
        sla := none } 1000).2 = some .portNameMissing
    ∧ effMaxFailures (ValidateTaskConfig
      { instanceCount := 2,
        defaultConfig := some { name := "d", ports := [], restartPolicy := none,
                                command := some { value := "echo" } },
        instanceConfig :=
          [(0, { name := "t0",
                 ports := [{ name := "", value := 0, envName := "" }],
                 restartPolicy := none, command := some { value := "echo" } }),
           (1, { name := "t1", ports := [],
                 restartPolicy := some { maxFailures := 500 },
                 command := some { value := "echo" } })],
        sla := none } 1000).1 1 = 500 := by
  refine ⟨by decide, by decide, by decide⟩

/-- **C10 (amended).** Task-config validation mutates its input instead of
rejecting it for excessive retries, for every instance the validation loop
reaches: whenever `validateTaskConfigWithRange` (and so `ValidateTaskConfig`,
and `ValidateUpdatedConfig`, which delegates to the same range function)
reports no error, every instance in the validated range ends up with its
effective restart policy's `MaxFailures` equal to `min(original, 100)` — in
particular an original value above 100 is set to 100 in place, and excessive
retries alone never cause a validation error. (A validation error raised at
an *earlier* instance returns before later instances are clamped, which is
what the counterexample forces this amendment to say.) -/
theorem C10_clamp_on_success (jc : JobConfig) (maxT lo hi : Nat) :
    ((validateTaskConfigWithRange jc maxT lo hi).2 = none →
      ∀ k, lo ≤ k → k < hi →
        effMaxFailures (validateTaskConfigWithRange jc maxT lo hi).1 k =
          min (effMaxFailures jc k) maxTaskRetries)
    ∧ ((ValidateTaskConfig jc maxT).2 = none →
      ∀ k, k < jc.instanceCount →
        effMaxFailures (ValidateTaskConfig jc maxT).1 k =
          min (effMaxFailures jc k) maxTaskRetries) := by
  have main : ∀ lo' hi', (validateTaskConfigWithRange jc maxT lo' hi').2 = none →
      ∀ k, lo' ≤ k → k < hi' →
        effMaxFailures (validateTaskConfigWithRange jc maxT lo' hi').1 k =
          min (effMaxFailures jc k) maxTaskRetries := by
    intro lo' hi' hok k h1 h2
    obtain ⟨hfst, hnone⟩ := validateTaskConfigWithRange_ok jc maxT lo' hi' hok
    rw [hfst]
    exact (validateInstances_clamps (hi' - lo') lo' jc hnone).1 k h1 (by omega)
  exact ⟨main lo hi, fun hok k h2 =>
    main 0 jc.instanceCount hok k (Nat.zero_le k) h2⟩

/-- **C10 witness**: a config whose only instance has `MaxFailures = 500`
validates without error and the field comes back clamped to 100. -/
theorem C10_clamp_on_success_witness :
    (validateTaskConfigWithRange
      { instanceCount := 1,
        defaultConfig := some { name := "d", ports := [], restartPolicy := none,
                                command := some { value := "echo" } },
        instanceConfig :=
          [(0, { name := "t0", ports := [],
                 restartPolicy := some { maxFailures := 500 },
                 command := some { value := "echo" } })],
        sla := none } 1000 0 1).2 = none
    ∧ (0 : Nat) ≤ 0 ∧ (0 : Nat) < 1
    ∧ effMaxFailures (validateTaskConfigWithRange
      { instanceCount := 1,
        defaultConfig := some { name := "d", ports := [], restartPolicy := none,
                                command := some { value := "echo" } },
        instanceConfig :=
          [(0, { name := "t0", ports := [],
                 restartPolicy := some { maxFailures := 500 },
                 command := some { value := "echo" } })],
        sla := none } 1000 0 1).1 0 =
      min (effMaxFailures
      { instanceCount := 1,
        defaultConfig := some { name := "d", ports := [], restartPolicy := none,
                                command := some { value := "echo" } },
        instanceConfig :=
          [(0, { name := "t0", ports := [],
                 restartPolicy := some { maxFailures := 500 },
                 command := some { value := "echo" } })],
        sla := none } 0) maxTaskRetries := by
  refine ⟨by decide, by decide, by decide, ?_⟩
  exact (C10_clamp_on_success _ 1000 0 1).1 (by decide) 0 (by decide) (by decide)

end Peloton.Jobconfig
